import Mathlib

/-!
Shallow embedding of the Azure metrics provider of the control-plane
repository (components/metris/internal/provider/azure/azure.go):
the Instance cache, the per-cycle worker body of `Run`, the intake
handler `clusterHandler`, and the metrics assembly `getMetrics`.

External collaborator responses (the Azure client's sub-fetch results,
resource-group lookup, VM SKU listing) are supplied as explicit
environment values; provider calls, emitted events, queue operations
and storage effects are returned explicitly so that the control flow of
the Go code can be reasoned about step by step.
-/

namespace Metris

/-- Cluster snapshot delivered by the discovery feed
(`gardener.Cluster` as used by azure.go). -/
structure Cluster where
  technicalID : String
  accountID : String
  subAccountID : String
  region : String
  trial : Bool
  deleted : Bool
deriving Repr, DecidableEq

/-- Compute metrics payload returned by `getComputeMetrics`.  Its contents
are opaque to azure.go's control flow (assembled and serialized only),
so it is embedded as an opaque wrapper. -/
structure Compute where
  raw : Nat
deriving Repr, DecidableEq

/-- Network metrics payload returned by `getNetworkMetrics`; opaque to the
control flow, embedded as a wrapper. -/
structure Networking where
  raw : Nat
deriving Repr, DecidableEq

/-- Event-hub metrics section of `EventData`; azure.go zero-initializes all
seven fields when no event-hub resource group is known. -/
structure EventHub where
  numberNamespaces : Int
  incomingRequestsPT1M : Int
  maxIncomingBytesPT1M : Int
  maxOutgoingBytesPT1M : Int
  incomingRequestsPT5M : Int
  maxIncomingBytesPT5M : Int
  maxOutgoingBytesPT5M : Int
deriving Repr, DecidableEq

/-- The zeroed `EventHub` literal built in `getMetrics` (azure.go lines
323-331). -/
def zeroEventHub : EventHub :=
  { numberNamespaces := 0
    incomingRequestsPT1M := 0
    maxIncomingBytesPT1M := 0
    maxOutgoingBytesPT1M := 0
    incomingRequestsPT5M := 0
    maxIncomingBytesPT5M := 0
    maxOutgoingBytesPT5M := 0 }

/-- Per-cycle aggregate assembled by `getMetrics`. -/
structure EventData where
  resourceGroups : List String
  compute : Compute
  networking : Networking
  eventHub : EventHub
deriving Repr, DecidableEq

/-- Instance owned by the Instance cache.  The Azure client handle is the
opaque external collaborator and is represented by the environment at
each call site instead of being stored.  `eventHubResourceGroupName`
uses the Go convention: empty string means unknown. -/
structure Instance where
  cluster : Cluster
  eventHubResourceGroupName : String
  lastEvent : Option EventData
  retryAttempts : Nat
  retryBackoff : Bool
deriving Repr, DecidableEq

/-- Errors surfaced by the Azure client: `detailed` embeds
`autorest.DetailedError` (HTTP status code plus the text of the wrapped
original error); `plain` embeds an `errors.New` error such as the
synthesized self-throttling failure. -/
inductive AzError where
  | detailed (statusCode : Nat) (originalMsg : String)
  | plain (msg : String)
deriving Repr, DecidableEq

/-- Message of the error synthesized when a cycle is skipped because of
`retryBackoff` (azure.go line 125). -/
def throttleMsg : String := "client-side self-throttling, skip fetching metrics"

/-- Azure error code looked for in the 404 branch
(`responseErrCodeResourceGroupNotFound` in the azure package). -/
def responseErrCodeResourceGroupNotFound : String := "ResourceGroupNotFound"

/-- Helper for `strings.Contains`: does `pat` occur contiguously in `l`? -/
def listIsInfixOf (pat l : List Char) : Bool :=
  match l with
  | [] => pat.isEmpty
  | _ :: t => List.isPrefixOf pat l || listIsInfixOf pat t

/-- `strings.Contains` on the original error text. -/
def strContains (s pat : String) : Bool :=
  listIsInfixOf pat.toList s.toList

/-- Provider Client calls a worker cycle can make, in the order recorded. -/
inductive ProviderCall where
  | fetchCompute
  | fetchNetwork
  | fetchEventHub
deriving Repr, DecidableEq

/-- Event sent to the EDP events channel (`edp.Event`); the serialized
payload is represented by the `EventData` it marshals. -/
structure Event where
  datatenant : String
  data : EventData
deriving Repr, DecidableEq

/-- Responses the Azure client would give to the three metric sub-fetches
during one cycle. -/
structure FetchEnv where
  computeResult : Except AzError Compute
  networkResult : Except AzError Networking
  eventHubResult : Except AzError EventHub

/-- The concurrent key-value cache (`storage.NewMemoryStorage`), embedded as
an association list with map semantics: `put` overwrites, `get` finds the
current binding, `delete` removes it. -/
abbrev Store (α : Type) : Type := List (String × α)

namespace Store

def get {α : Type} (s : Store α) (k : String) : Option α :=
  List.lookup k s

def put {α : Type} (s : Store α) (k : String) (v : α) : Store α :=
  (k, v) :: List.filter (fun p => p.1 != k) s

def delete {α : Type} (s : Store α) (k : String) : Store α :=
  List.filter (fun p => p.1 != k) s

end Store

/-- `getMetrics` (azure.go lines 290-345): sequential compute, network and
(when an event-hub resource group name is known) event-hub sub-fetches,
aborting on the first error; returns the assembled `EventData` together
with the list of Provider Client calls performed. -/
def getMetrics (inst : Instance) (env : FetchEnv) :
    Except AzError EventData × List ProviderCall :=
  match env.computeResult with
  | Except.error e => (Except.error e, [ProviderCall.fetchCompute])
  | Except.ok computeData =>
    match env.networkResult with
    | Except.error e =>
        (Except.error e, [ProviderCall.fetchCompute, ProviderCall.fetchNetwork])
    | Except.ok networkData =>
      let eventData : EventData :=
        { resourceGroups := [inst.cluster.technicalID]
          compute := computeData
          networking := networkData
          eventHub := zeroEventHub }
      if inst.eventHubResourceGroupName.length > 0 then
        match env.eventHubResult with
        | Except.error e =>
            (Except.error e,
             [ProviderCall.fetchCompute, ProviderCall.fetchNetwork,
              ProviderCall.fetchEventHub])
        | Except.ok eventhubData =>
            (Except.ok
              { eventData with
                  resourceGroups :=
                    eventData.resourceGroups ++ [inst.eventHubResourceGroupName]
                  eventHub := eventhubData },
             [ProviderCall.fetchCompute, ProviderCall.fetchNetwork,
              ProviderCall.fetchEventHub])
      else
        (Except.ok eventData, [ProviderCall.fetchCompute, ProviderCall.fetchNetwork])

/-- Outcome of the fetch-or-skip decision of one worker cycle (azure.go
lines 122-128): a `retryBackoff` instance skips the external call and
synthesizes the self-throttling error. -/
def fetchResultOf (inst : Instance) (env : FetchEnv) : Except AzError EventData :=
  if inst.retryBackoff then Except.error (AzError.plain throttleMsg)
  else (getMetrics inst env).1

/-- Provider Client calls made by the fetch-or-skip decision. -/
def fetchCallsOf (inst : Instance) (env : FetchEnv) : List ProviderCall :=
  if inst.retryBackoff then [] else (getMetrics inst env).2

/-- Error classification of a failed fetch (azure.go lines 131-157): a 404
carrying the ResourceGroupNotFound code increments `retryAttempts` and
either re-`Put`s the instance (below the maximum) or `Delete`s it (at the
maximum); a 429 sets `retryBackoff`; everything else is left alone.
Returns the mutated instance and the storage after the immediate effect. -/
def classifyError (maxRetryAttempts : Nat) (store : Store Instance)
    (inst : Instance) (e : AzError) : Instance × Store Instance :=
  match e with
  | AzError.detailed statusCode originalMsg =>
      if statusCode = 404 then
        if strContains originalMsg responseErrCodeResourceGroupNotFound then
          let inst' := { inst with retryAttempts := inst.retryAttempts + 1 }
          if inst'.retryAttempts < maxRetryAttempts then
            (inst', Store.put store inst.cluster.technicalID inst')
          else
            (inst', Store.delete store inst.cluster.technicalID)
        else (inst, store)
      else if statusCode = 429 then
        ({ inst with retryBackoff := true }, store)
      else (inst, store)
  | AzError.plain _ => (inst, store)

/-- Observable result of one worker cycle: the Instance cache afterwards,
the Provider Client calls made, the events pushed to the EDP channel,
whether `queue.Done` was called, and whether the TechnicalID was
re-admitted via `queue.AddAfter`. -/
structure CycleResult where
  store : Store Instance
  providerCalls : List ProviderCall
  events : List Event
  acked : Bool
  requeued : Bool
deriving Repr, DecidableEq

/-- One iteration of the worker loop body of `Run` (azure.go lines 80-186)
for a dequeued `clusterid`: look up the Instance (ack-and-skip when
absent), skip or perform the fetch, classify a failure, fall back to
`lastEvent` when present, send the event (`sendMetrics` also stores the
sent payload as the new `lastEvent`), write the instance back with the
unconditional `Put` of line 176, ack, and requeue unless the queue is
shutting down. -/
def workerCycle (maxRetryAttempts : Nat) (store : Store Instance)
    (clusterid : String) (env : FetchEnv) (shuttingDown : Bool) : CycleResult :=
  match Store.get store clusterid with
  | none =>
      { store := store, providerCalls := [], events := [],
        acked := true, requeued := false }
  | some inst0 =>
      let inst1 :=
        if inst0.retryBackoff then { inst0 with retryBackoff := false } else inst0
      let calls := fetchCallsOf inst0 env
      match fetchResultOf inst0 env with
      | Except.ok fresh =>
          let inst2 := { inst1 with lastEvent := some fresh }
          { store := Store.put store inst2.cluster.technicalID inst2
            providerCalls := calls
            events := [{ datatenant := inst2.cluster.subAccountID, data := fresh }]
            acked := true
            requeued := !shuttingDown }
      | Except.error e =>
          let classified := classifyError maxRetryAttempts store inst1 e
          let inst2 := classified.1
          let store1 := classified.2
          match inst2.lastEvent with
          | none =>
              { store := Store.put store1 inst2.cluster.technicalID inst2
                providerCalls := calls
                events := []
                acked := true
                requeued := !shuttingDown }
          | some le =>
              let inst3 := { inst2 with lastEvent := some le }
              { store := Store.put store1 inst3.cluster.technicalID inst3
                providerCalls := calls
                events := [{ datatenant := inst3.cluster.subAccountID, data := le }]
                acked := true
                requeued := !shuttingDown }

/-- VM capability catalog cached per region:
[vmtype][capability name]capability value. -/
abbrev VMCaps : Type := Store (Store String)

/-- Responses the external collaborators would give while Cluster Intake
processes one notification: whether `newClient` succeeds, the result of
`GetResourceGroup` (the found group's name on success), and the result
of `GetVMResourceSkus` as (sku name, capability name/value list) pairs. -/
structure IntakeEnv where
  clientOk : Bool
  resourceGroupResult : Except String String
  vmSkuResult : Except String (List (String × List (String × String)))

/-- Observable result of processing one notification in `clusterHandler`:
the Instance cache and VM-capability cache afterwards, the TechnicalIDs
admitted to the Work Queue with `Add`, and the notification scheduled for
delayed re-delivery via `time.AfterFunc`, if any. -/
structure IntakeResult where
  store : Store Instance
  vmCaps : Store VMCaps
  queueAdds : List String
  redelivery : Option Cluster
deriving DecidableEq

/-- Builds the region capability table from a SKU list (azure.go lines
266-271). -/
def buildVMCaps (skuList : List (String × List (String × String))) : VMCaps :=
  skuList.foldl
    (fun acc item =>
      Store.put acc item.1
        (item.2.foldl (fun caps v => Store.put caps v.1 v.2) ([] : Store String)))
    ([] : VMCaps)

/-- One iteration of `clusterHandler` (azure.go lines 201-279) for a
received notification: delete on `Deleted`, otherwise rebuild the
Instance carrying forward `lastEvent` and `eventHubResourceGroupName`,
drop the cluster when client construction fails, resolve the event-hub
resource group when unknown (failure: delayed re-delivery for non-trial,
tolerated for trial), persist the Instance, prime the region capability
cache when absent (skip caching on error or empty result), and admit the
TechnicalID to the Work Queue. -/
def clusterHandlerStep (cluster : Cluster) (env : IntakeEnv)
    (store : Store Instance) (vmCapsStore : Store VMCaps) : IntakeResult :=
  if cluster.deleted then
    { store := Store.delete store cluster.technicalID
      vmCaps := vmCapsStore, queueAdds := [], redelivery := none }
  else
    let inst0 : Instance :=
      { cluster := cluster, eventHubResourceGroupName := ""
        lastEvent := none, retryAttempts := 0, retryBackoff := false }
    let inst1 :=
      match Store.get store cluster.technicalID with
      | some prev =>
          { inst0 with
              lastEvent := prev.lastEvent
              eventHubResourceGroupName := prev.eventHubResourceGroupName }
      | none => inst0
    if !env.clientOk then
      { store := Store.delete store cluster.technicalID
        vmCaps := vmCapsStore, queueAdds := [], redelivery := none }
    else
      let afterLookup : Option Instance :=
        if inst1.eventHubResourceGroupName = "" then
          match env.resourceGroupResult with
          | Except.error _ =>
              if !cluster.trial then none else some inst1
          | Except.ok rgName =>
              some { inst1 with eventHubResourceGroupName := rgName }
        else some inst1
      match afterLookup with
      | none =>
          { store := store, vmCaps := vmCapsStore
            queueAdds := [], redelivery := some cluster }
      | some inst2 =>
          let store2 := Store.put store cluster.technicalID inst2
          let vm2 :=
            match Store.get vmCapsStore cluster.region with
            | some _ => vmCapsStore
            | none =>
                match env.vmSkuResult with
                | Except.error _ => vmCapsStore
                | Except.ok skuList =>
                    let vmcaps := buildVMCaps skuList
                    if 0 < vmcaps.length then
                      Store.put vmCapsStore cluster.region vmcaps
                    else vmCapsStore
          { store := store2, vmCaps := vm2
            queueAdds := [cluster.technicalID], redelivery := none }

/-- Folds `clusterHandlerStep` over a finite sequence of notifications,
each paired with its collaborator environment (intake is single-threaded
and processes notifications in arrival order). -/
def intakeRun (ns : List (Cluster × IntakeEnv))
    (store : Store Instance) (vmCapsStore : Store VMCaps) :
    Store Instance × Store VMCaps :=
  match ns with
  | [] => (store, vmCapsStore)
  | (c, env) :: rest =>
      let r := clusterHandlerStep c env store vmCapsStore
      intakeRun rest r.store r.vmCaps

/-! Map lemmas for the association-list embedding of the concurrent store. -/

theorem lookup_filter_of_ne {α : Type} (s : List (String × α)) (k k' : String)
    (h : k' ≠ k) :
    List.lookup k' (s.filter (fun p => p.1 != k)) = List.lookup k' s := by
  induction s with
  | nil => rfl
  | cons hd t ih =>
      by_cases hk : hd.1 = k
      · have : (hd.1 != k) = false := by simp [hk]
        have hne : (k' == hd.1) = false := by
          simp [hk]
          exact h
        simp [List.filter, this, List.lookup, hne, ih]
      · have : (hd.1 != k) = true := by simp [hk]
        by_cases hk' : k' = hd.1
        · simp [List.filter, this, List.lookup, hk']
        · have hne : (k' == hd.1) = false := by simp [hk']
          simp [List.filter, this, List.lookup, hne, ih]

theorem lookup_filter_self {α : Type} (s : List (String × α)) (k : String) :
    List.lookup k (s.filter (fun p => p.1 != k)) = none := by
  induction s with
  | nil => rfl
  | cons hd t ih =>
      by_cases hk : hd.1 = k
      · have : (hd.1 != k) = false := by simp [hk]
        simp [List.filter, this, ih]
      · have : (hd.1 != k) = true := by simp [hk]
        have hne : (k == hd.1) = false := by
          simp
          exact fun hkk => hk hkk.symm
        simp [List.filter, this, List.lookup, hne, ih]

theorem Store.get_put_self {α : Type} (s : Store α) (k : String) (v : α) :
    Store.get (Store.put s k v) k = some v := by
  simp [Store.get, Store.put, List.lookup]

theorem Store.get_put_of_ne {α : Type} (s : Store α) (k k' : String) (v : α)
    (h : k' ≠ k) :
    Store.get (Store.put s k v) k' = Store.get s k' := by
  have hne : (k' == k) = false := by simp [h]
  simp [Store.get, Store.put, List.lookup, hne]
  exact lookup_filter_of_ne s k k' h

theorem Store.get_delete_self {α : Type} (s : Store α) (k : String) :
    Store.get (Store.delete s k) k = none := by
  exact lookup_filter_self s k

theorem Store.get_delete_of_ne {α : Type} (s : Store α) (k k' : String)
    (h : k' ≠ k) :
    Store.get (Store.delete s k) k' = Store.get s k' := by
  simp [Store.get, Store.delete]
  exact lookup_filter_of_ne s k k' h

/-! Frame lemmas about the error classification of a failed fetch: it never
touches the cluster snapshot or the cached payload, and it never lowers the
retry counter. -/

theorem classifyError_fst_cluster (m : Nat) (s : Store Instance)
    (i : Instance) (e : AzError) :
    (classifyError m s i e).1.cluster = i.cluster := by
  unfold classifyError
  cases e with
  | detailed st msg =>
      dsimp only
      split
      · split
        · split <;> rfl
        · rfl
      · split <;> rfl
  | plain m => rfl

theorem classifyError_fst_lastEvent (m : Nat) (s : Store Instance)
    (i : Instance) (e : AzError) :
    (classifyError m s i e).1.lastEvent = i.lastEvent := by
  unfold classifyError
  cases e with
  | detailed st msg =>
      dsimp only
      split
      · split
        · split <;> rfl
        · rfl
      · split <;> rfl
  | plain m => rfl

theorem classifyError_fst_retryAttempts_ge (m : Nat) (s : Store Instance)
    (i : Instance) (e : AzError) :
    i.retryAttempts ≤ (classifyError m s i e).1.retryAttempts := by
  unfold classifyError
  cases e with
  | detailed st msg =>
      dsimp only
      split
      · split
        · split
          · exact Nat.le_succ _
          · exact Nat.le_succ _
        · exact Nat.le_refl _
      · split <;> exact Nat.le_refl _
  | plain m => exact Nat.le_refl _

/-- Structure eta helper: overwriting `lastEvent` with its current value is
the identity (the Go code re-assigns the same pointer on a fallback resend). -/
theorem instance_eta_lastEvent (i : Instance) (le : EventData)
    (h : i.lastEvent = some le) :
    { i with lastEvent := some le } = i := by
  cases i with
  | mk c n l a b =>
      cases h
      rfl

/-- The instance seen by the fetch decision after the single-shot backoff
flag has been consumed (azure.go lines 123-124). -/
def afterBackoff (inst : Instance) : Instance :=
  if inst.retryBackoff then { inst with retryBackoff := false } else inst

theorem afterBackoff_cluster (inst : Instance) :
    (afterBackoff inst).cluster = inst.cluster := by
  unfold afterBackoff
  split <;> rfl

theorem afterBackoff_lastEvent (inst : Instance) :
    (afterBackoff inst).lastEvent = inst.lastEvent := by
  unfold afterBackoff
  split <;> rfl

theorem afterBackoff_retryAttempts (inst : Instance) :
    (afterBackoff inst).retryAttempts = inst.retryAttempts := by
  unfold afterBackoff
  split <;> rfl

/-- On a failed fetch, the cycle's emitted events are exactly the cached
`lastEvent` re-sent (tagged with the cluster's SubAccountID), or nothing
when no payload is cached. -/
theorem workerCycle_error_events (maxA : Nat) (store : Store Instance)
    (cid : String) (env : FetchEnv) (sd : Bool) (inst : Instance) (e : AzError)
    (hget : Store.get store cid = some inst)
    (hfail : fetchResultOf inst env = Except.error e) :
    (workerCycle maxA store cid env sd).events =
      (match inst.lastEvent with
       | some le => [{ datatenant := inst.cluster.subAccountID, data := le }]
       | none => ([] : List Event)) := by
  unfold workerCycle
  rw [hget]
  dsimp only
  rw [show (if inst.retryBackoff then { inst with retryBackoff := false } else inst)
        = afterBackoff inst from rfl]
  rw [hfail]
  dsimp only
  have hle : (classifyError maxA store (afterBackoff inst) e).1.lastEvent
      = inst.lastEvent := by
    rw [classifyError_fst_lastEvent, afterBackoff_lastEvent]
  have hcl : (classifyError maxA store (afterBackoff inst) e).1.cluster
      = inst.cluster := by
    rw [classifyError_fst_cluster, afterBackoff_cluster]
  cases h2 : (classifyError maxA store (afterBackoff inst) e).1.lastEvent with
  | none =>
      rw [hle] at h2
      rw [h2]
  | some le =>
      rw [hle] at h2
      rw [h2]
      dsimp only
      rw [hcl]

/-- On a failed fetch, the instance written back by the unconditional `Put`
of azure.go line 176 is exactly the classified instance. -/
theorem workerCycle_error_store (maxA : Nat) (store : Store Instance)
    (cid : String) (env : FetchEnv) (sd : Bool) (inst : Instance) (e : AzError)
    (hget : Store.get store cid = some inst)
    (hkey : inst.cluster.technicalID = cid)
    (hfail : fetchResultOf inst env = Except.error e) :
    Store.get (workerCycle maxA store cid env sd).store cid =
      some (classifyError maxA store (afterBackoff inst) e).1 := by
  unfold workerCycle
  rw [hget]
  dsimp only
  rw [show (if inst.retryBackoff then { inst with retryBackoff := false } else inst)
        = afterBackoff inst from rfl]
  rw [hfail]
  dsimp only
  have hcl : (classifyError maxA store (afterBackoff inst) e).1.cluster
      = inst.cluster := by
    rw [classifyError_fst_cluster, afterBackoff_cluster]
  cases h2 : (classifyError maxA store (afterBackoff inst) e).1.lastEvent with
  | none =>
      dsimp only
      rw [hcl, hkey]
      exact Store.get_put_self _ _ _
  | some le =>
      dsimp only
      rw [show ({ (classifyError maxA store (afterBackoff inst) e).1 with
            lastEvent := some le } : Instance)
          = (classifyError maxA store (afterBackoff inst) e).1
        from instance_eta_lastEvent _ _ h2]
      rw [hcl, hkey]
      exact Store.get_put_self _ _ _

/-- On a failed fetch the cycle is acked, and requeued exactly when the
queue is not shutting down. -/
theorem workerCycle_error_requeue (maxA : Nat) (store : Store Instance)
    (cid : String) (env : FetchEnv) (sd : Bool) (inst : Instance) (e : AzError)
    (hget : Store.get store cid = some inst)
    (hfail : fetchResultOf inst env = Except.error e) :
    (workerCycle maxA store cid env sd).acked = true ∧
    (workerCycle maxA store cid env sd).requeued = !sd := by
  unfold workerCycle
  rw [hget]
  dsimp only
  rw [show (if inst.retryBackoff then { inst with retryBackoff := false } else inst)
        = afterBackoff inst from rfl]
  rw [hfail]
  dsimp only
  cases h2 : (classifyError maxA store (afterBackoff inst) e).1.lastEvent with
  | none => exact ⟨rfl, rfl⟩
  | some le => exact ⟨rfl, rfl⟩

/-- On a successful fetch, the fresh payload is sent, saved as the new
`lastEvent`, and the TechnicalID is requeued unless shutting down. -/
theorem workerCycle_ok (maxA : Nat) (store : Store Instance)
    (cid : String) (env : FetchEnv) (sd : Bool) (inst : Instance) (d : EventData)
    (hget : Store.get store cid = some inst)
    (hkey : inst.cluster.technicalID = cid)
    (hok : fetchResultOf inst env = Except.ok d) :
    (workerCycle maxA store cid env sd).events =
      [{ datatenant := inst.cluster.subAccountID, data := d }] ∧
    Store.get (workerCycle maxA store cid env sd).store cid =
      some { afterBackoff inst with lastEvent := some d } ∧
    (workerCycle maxA store cid env sd).requeued = !sd := by
  unfold workerCycle
  rw [hget]
  dsimp only
  rw [show (if inst.retryBackoff then { inst with retryBackoff := false } else inst)
        = afterBackoff inst from rfl]
  rw [hok]
  dsimp only
  refine ⟨?_, ?_, rfl⟩
  · rw [show ({ afterBackoff inst with lastEvent := some d } : Instance).cluster
        = inst.cluster by rw [afterBackoff_cluster]]
  · rw [show ({ afterBackoff inst with lastEvent := some d } : Instance).cluster
        = inst.cluster by rw [afterBackoff_cluster]]
    rw [hkey]
    exact Store.get_put_self _ _ _

/-! Concrete sample data used by the witnesses. -/

def wCluster : Cluster :=
  { technicalID := "c1", accountID := "acc", subAccountID := "sub"
    region := "westeurope", trial := false, deleted := false }

def wEventData : EventData :=
  { resourceGroups := ["c1"], compute := ⟨5⟩, networking := ⟨7⟩
    eventHub := zeroEventHub }

def wEnvOk : FetchEnv :=
  { computeResult := Except.ok ⟨5⟩, networkResult := Except.ok ⟨7⟩
    eventHubResult := Except.ok zeroEventHub }

def wEnv404 : FetchEnv :=
  { computeResult :=
      Except.error (AzError.detailed 404 "Code: ResourceGroupNotFound")
    networkResult := Except.ok ⟨7⟩
    eventHubResult := Except.ok zeroEventHub }

def wEnv429 : FetchEnv :=
  { computeResult := Except.error (AzError.detailed 429 "too many requests")
    networkResult := Except.ok ⟨7⟩
    eventHubResult := Except.ok zeroEventHub }

/-- Instance one failed attempt below the removal threshold of 3. -/
def wInstBelow : Instance :=
  { cluster := wCluster, eventHubResourceGroupName := ""
    lastEvent := none, retryAttempts := 1, retryBackoff := false }

/-- Instance whose next not-found failure reaches the removal threshold of 3. -/
def wInstAtMax : Instance :=
  { cluster := wCluster, eventHubResourceGroupName := ""
    lastEvent := none, retryAttempts := 2, retryBackoff := false }

/-- C1: the claim states that a resource-group-not-found failure that brings
`retryAttempts` to the configured maximum deletes the Instance from the
Instance cache at the end of that cycle and never re-admits the
TechnicalID.  The code does delete the Instance inside the error branch
(azure.go line 147), but the unconditional `Put` of line 176 then
re-inserts the very same instance and line 183 re-admits the TechnicalID,
contradicting the code's own comments ("remove from storage if it reach
max attempt", "requeue item after X duration if client still in
storage").  Evaluating the worker cycle at the failing input
(`retryAttempts = maxRetryAttempts - 1`, fetch failing with 404
ResourceGroupNotFound): the Instance is still cached afterwards with the
counter at the maximum, and the TechnicalID is requeued. -/
theorem C1_max_attempts_reinserted_and_requeued :
    (Store.get (workerCycle 3 [("c1", wInstAtMax)] "c1" wEnv404 false).store
        "c1").map Instance.retryAttempts = some 3 ∧
    (workerCycle 3 [("c1", wInstAtMax)] "c1" wEnv404 false).requeued = true := by
  decide

/-- C6: a worker cycle whose dequeued TechnicalID has no Instance in the
Instance cache makes no Provider Client calls, emits no event, leaves the
store untouched, acknowledges the queue item and does not re-admit the
TechnicalID. -/
theorem C6_missing_instance_inert (maxA : Nat) (store : Store Instance)
    (clusterid : String) (env : FetchEnv) (sd : Bool)
    (h : Store.get store clusterid = none) :
    workerCycle maxA store clusterid env sd =
      { store := store, providerCalls := [], events := [],
        acked := true, requeued := false } := by
  unfold workerCycle
  rw [h]

theorem C6_missing_instance_inert_witness :
    Store.get ([] : Store Instance) "c1" = none ∧
    workerCycle 3 ([] : Store Instance) "c1" wEnvOk false =
      { store := [], providerCalls := [], events := [],
        acked := true, requeued := false } :=
  ⟨rfl, C6_missing_instance_inert 3 [] "c1" wEnvOk false rfl⟩

/-- C5: across consecutive worker cycles for one Instance, `retryAttempts`
is monotonically non-decreasing: whatever instance is stored under the
cycle's key after a cycle carries a retry counter at least as large as
before the cycle (the only mutations are the 404 increment and writes of
the otherwise-unchanged counter; the code resets the counter only when
Cluster Intake rebuilds the instance, never inside a worker cycle). -/
theorem C5_retryAttempts_monotone (maxA : Nat) (store : Store Instance)
    (cid : String) (env : FetchEnv) (sd : Bool) (inst inst' : Instance)
    (hget : Store.get store cid = some inst)
    (hkey : inst.cluster.technicalID = cid)
    (hget' : Store.get (workerCycle maxA store cid env sd).store cid = some inst') :
    inst.retryAttempts ≤ inst'.retryAttempts := by
  cases hfr : fetchResultOf inst env with
  | ok d =>
      have h := (workerCycle_ok maxA store cid env sd inst d hget hkey hfr).2.1
      rw [hget'] at h
      injection h with h
      rw [h]
      show inst.retryAttempts ≤ (afterBackoff inst).retryAttempts
      rw [afterBackoff_retryAttempts]
  | error e =>
      have h := workerCycle_error_store maxA store cid env sd inst e hget hkey hfr
      rw [hget'] at h
      injection h with h
      rw [h]
      calc inst.retryAttempts
          = (afterBackoff inst).retryAttempts := (afterBackoff_retryAttempts inst).symm
        _ ≤ _ := classifyError_fst_retryAttempts_ge maxA store (afterBackoff inst) e

theorem C5_retryAttempts_monotone_witness :
    wInstBelow.retryAttempts ≤
      ({ cluster := wCluster, eventHubResourceGroupName := ""
         lastEvent := none, retryAttempts := 2,
         retryBackoff := false } : Instance).retryAttempts :=
  C5_retryAttempts_monotone 3 [("c1", wInstBelow)] "c1" wEnv404 false
    wInstBelow _ rfl rfl rfl

/-- C2: on any fetch failure the cycle emits exactly one event whose payload
is the cached `lastEvent` when one is present, and emits nothing when
`lastEvent` is absent; on a successful fetch the freshly computed
`EventData` is stored as the new `lastEvent`, so the payload cached at the
start of a failing cycle is exactly the prior successful cycle's computed
`EventData`. -/
theorem C2_fallback_policy (maxA : Nat) (store : Store Instance)
    (cid : String) (env : FetchEnv) (sd : Bool) (inst : Instance)
    (hget : Store.get store cid = some inst)
    (hkey : inst.cluster.technicalID = cid) :
    (∀ e le, fetchResultOf inst env = Except.error e →
        inst.lastEvent = some le →
        (workerCycle maxA store cid env sd).events =
          [{ datatenant := inst.cluster.subAccountID, data := le }]) ∧
    (∀ e, fetchResultOf inst env = Except.error e →
        inst.lastEvent = none →
        (workerCycle maxA store cid env sd).events = []) ∧
    (∀ d, fetchResultOf inst env = Except.ok d →
        Store.get (workerCycle maxA store cid env sd).store cid =
          some { afterBackoff inst with lastEvent := some d }) := by
  refine ⟨?_, ?_, ?_⟩
  · intro e le hfail hle
    rw [workerCycle_error_events maxA store cid env sd inst e hget hfail, hle]
  · intro e hfail hle
    rw [workerCycle_error_events maxA store cid env sd inst e hget hfail, hle]
  · intro d hok
    exact (workerCycle_ok maxA store cid env sd inst d hget hkey hok).2.1

/-- Instance caching a previously computed payload, for the C2 witness. -/
def wInstCached : Instance :=
  { cluster := wCluster, eventHubResourceGroupName := ""
    lastEvent := some wEventData, retryAttempts := 0, retryBackoff := false }

theorem C2_fallback_policy_witness :
    (workerCycle 3 [("c1", wInstCached)] "c1" wEnv404 false).events =
      [{ datatenant := "sub", data := wEventData }] :=
  (C2_fallback_policy 3 [("c1", wInstCached)] "c1" wEnv404 false wInstCached
      rfl rfl).1 (AzError.detailed 404 "Code: ResourceGroupNotFound")
    wEventData rfl rfl

/-- A worker cycle that finds its instance makes exactly the Provider Client
calls of the fetch decision: none when the backoff flag is consumed, the
`getMetrics` calls otherwise. -/
theorem workerCycle_calls (maxA : Nat) (store : Store Instance)
    (cid : String) (env : FetchEnv) (sd : Bool) (inst : Instance)
    (hget : Store.get store cid = some inst) :
    (workerCycle maxA store cid env sd).providerCalls = fetchCallsOf inst env := by
  unfold workerCycle
  rw [hget]
  dsimp only
  cases hfr : fetchResultOf inst env with
  | ok d => rfl
  | error e =>
      dsimp only
      cases h2 : (classifyError maxA store
          (if inst.retryBackoff then { inst with retryBackoff := false } else inst)
          e).1.lastEvent with
      | none => rfl
      | some le => rfl

/-- The first Provider Client call of `getMetrics` is always the compute
sub-fetch. -/
theorem getMetrics_calls_head (inst : Instance) (env : FetchEnv) :
    (getMetrics inst env).2.head? = some ProviderCall.fetchCompute := by
  unfold getMetrics
  cases env.computeResult with
  | error e => rfl
  | ok c =>
      cases env.networkResult with
      | error e => rfl
      | ok n =>
          dsimp only
          split
          · cases env.eventHubResult with
            | error e => rfl
            | ok h => rfl
          · rfl

/-- C3: a cycle K whose fetch is rejected with HTTP 429 stores the
`retryBackoff` flag; cycle K+1 therefore makes zero Provider Client
calls, synthesizes the self-throttling failure instead of fetching, and
stores the instance with the flag cleared; cycle K+2 then performs a
normal fetch again, starting with the compute sub-fetch. -/
theorem C3_rate_limit_self_throttle (maxA : Nat) (store : Store Instance)
    (cid : String) (env1 env2 env3 : FetchEnv) (inst : Instance) (msg : String)
    (hget : Store.get store cid = some inst)
    (hkey : inst.cluster.technicalID = cid)
    (hnb : inst.retryBackoff = false)
    (h429 : (getMetrics inst env1).1 = Except.error (AzError.detailed 429 msg)) :
    ∃ i1 i2,
      Store.get (workerCycle maxA store cid env1 false).store cid = some i1 ∧
      i1.retryBackoff = true ∧
      (workerCycle maxA (workerCycle maxA store cid env1 false).store
          cid env2 false).providerCalls = [] ∧
      fetchResultOf i1 env2 = Except.error (AzError.plain throttleMsg) ∧
      Store.get (workerCycle maxA (workerCycle maxA store cid env1 false).store
          cid env2 false).store cid = some i2 ∧
      i2.retryBackoff = false ∧
      (workerCycle maxA
          (workerCycle maxA (workerCycle maxA store cid env1 false).store
            cid env2 false).store
          cid env3 false).providerCalls.head? = some ProviderCall.fetchCompute := by
  have hab : afterBackoff inst = inst := by
    unfold afterBackoff
    rw [hnb]
    simp
  have hfail1 : fetchResultOf inst env1
      = Except.error (AzError.detailed 429 msg) := by
    unfold fetchResultOf
    rw [hnb]
    simpa using h429
  have hcl1 : classifyError maxA store (afterBackoff inst)
        (AzError.detailed 429 msg)
      = ({ inst with retryBackoff := true }, store) := by
    rw [hab]
    rfl
  have hst1 := workerCycle_error_store maxA store cid env1 false inst
    (AzError.detailed 429 msg) hget hkey hfail1
  rw [hcl1] at hst1
  refine ⟨{ inst with retryBackoff := true }, ?_⟩
  have hkey1 : ({ inst with retryBackoff := true } : Instance).cluster.technicalID
      = cid := hkey
  have hfail2 : fetchResultOf { inst with retryBackoff := true } env2
      = Except.error (AzError.plain throttleMsg) := rfl
  have hcalls2 := workerCycle_calls maxA
    (workerCycle maxA store cid env1 false).store cid env2 false
    { inst with retryBackoff := true } hst1
  have hcalls2' : (workerCycle maxA (workerCycle maxA store cid env1 false).store
      cid env2 false).providerCalls = [] := by
    rw [hcalls2]
    rfl
  have hcl2 : classifyError maxA (workerCycle maxA store cid env1 false).store
        (afterBackoff { inst with retryBackoff := true })
        (AzError.plain throttleMsg)
      = ({ inst with retryBackoff := false },
         (workerCycle maxA store cid env1 false).store) := rfl
  have hst2 := workerCycle_error_store maxA
    (workerCycle maxA store cid env1 false).store cid env2 false
    { inst with retryBackoff := true } (AzError.plain throttleMsg)
    hst1 hkey1 hfail2
  rw [hcl2] at hst2
  refine ⟨{ inst with retryBackoff := false }, hst1, rfl, hcalls2', hfail2,
    hst2, rfl, ?_⟩
  have hcalls3 := workerCycle_calls maxA
    (workerCycle maxA (workerCycle maxA store cid env1 false).store
      cid env2 false).store cid env3 false
    { inst with retryBackoff := false } hst2
  rw [hcalls3]
  have : fetchCallsOf { inst with retryBackoff := false } env3
      = (getMetrics { inst with retryBackoff := false } env3).2 := rfl
  rw [this]
  exact getMetrics_calls_head _ _

theorem C3_rate_limit_self_throttle_witness :
    ∃ i1 i2,
      Store.get (workerCycle 3 [("c1", wInstCached)] "c1" wEnv429 false).store
        "c1" = some i1 ∧
      i1.retryBackoff = true ∧
      (workerCycle 3 (workerCycle 3 [("c1", wInstCached)] "c1" wEnv429 false).store
          "c1" wEnvOk false).providerCalls = [] ∧
      fetchResultOf i1 wEnvOk = Except.error (AzError.plain throttleMsg) ∧
      Store.get (workerCycle 3
          (workerCycle 3 [("c1", wInstCached)] "c1" wEnv429 false).store
          "c1" wEnvOk false).store "c1" = some i2 ∧
      i2.retryBackoff = false ∧
      (workerCycle 3
          (workerCycle 3 (workerCycle 3 [("c1", wInstCached)] "c1" wEnv429 false).store
            "c1" wEnvOk false).store
          "c1" wEnvOk false).providerCalls.head? = some ProviderCall.fetchCompute :=
  C3_rate_limit_self_throttle 3 [("c1", wInstCached)] "c1" wEnv429 wEnvOk wEnvOk
    wInstCached "too many requests" rfl rfl rfl rfl

theorem string_length_pos_of_ne (s : String) (h : s ≠ "") : 0 < s.length := by
  cases s with
  | mk data =>
      cases data with
      | nil => exact absurd rfl h
      | cons c t => simp [String.length]

/-- C7: the metrics fetch performs the sub-fetches in the order compute,
network, then (only when an event-hub resource group name is known)
event-hub; the first sub-fetch error is returned as the whole fetch's
error with no `EventData`; and when no event-hub resource group is known
the assembled `EventData` carries the zeroed `EventHub` section and only
the compute and network calls are made. -/
theorem C7_getMetrics_order_and_failfast (inst : Instance) (env : FetchEnv) :
    (∀ e, env.computeResult = Except.error e →
        getMetrics inst env = (Except.error e, [ProviderCall.fetchCompute])) ∧
    (∀ c e, env.computeResult = Except.ok c →
        env.networkResult = Except.error e →
        getMetrics inst env =
          (Except.error e, [ProviderCall.fetchCompute, ProviderCall.fetchNetwork])) ∧
    (∀ c n, env.computeResult = Except.ok c →
        env.networkResult = Except.ok n →
        inst.eventHubResourceGroupName = "" →
        getMetrics inst env =
          (Except.ok { resourceGroups := [inst.cluster.technicalID]
                       compute := c, networking := n, eventHub := zeroEventHub },
           [ProviderCall.fetchCompute, ProviderCall.fetchNetwork])) ∧
    (∀ c n e, env.computeResult = Except.ok c →
        env.networkResult = Except.ok n →
        inst.eventHubResourceGroupName ≠ "" →
        env.eventHubResult = Except.error e →
        getMetrics inst env =
          (Except.error e,
           [ProviderCall.fetchCompute, ProviderCall.fetchNetwork,
            ProviderCall.fetchEventHub])) ∧
    (∀ c n h, env.computeResult = Except.ok c →
        env.networkResult = Except.ok n →
        inst.eventHubResourceGroupName ≠ "" →
        env.eventHubResult = Except.ok h →
        getMetrics inst env =
          (Except.ok { resourceGroups :=
                         [inst.cluster.technicalID, inst.eventHubResourceGroupName]
                       compute := c, networking := n, eventHub := h },
           [ProviderCall.fetchCompute, ProviderCall.fetchNetwork,
            ProviderCall.fetchEventHub])) := by
  refine ⟨?_, ?_, ?_, ?_, ?_⟩
  · intro e hc
    unfold getMetrics
    rw [hc]
  · intro c e hc hn
    unfold getMetrics
    rw [hc, hn]
  · intro c n hc hn hname
    unfold getMetrics
    rw [hc, hn]
    dsimp only
    rw [hname]
    rfl
  · intro c n e hc hn hname he
    unfold getMetrics
    rw [hc, hn]
    dsimp only
    rw [if_pos (string_length_pos_of_ne _ hname), he]
  · intro c n h hc hn hname he
    unfold getMetrics
    rw [hc, hn]
    dsimp only
    rw [if_pos (string_length_pos_of_ne _ hname), he]
    rfl

/-- Instance with a known event-hub resource group, for the C7 witness. -/
def wInstEH : Instance :=
  { cluster := wCluster, eventHubResourceGroupName := "rg-eh"
    lastEvent := none, retryAttempts := 0, retryBackoff := false }

theorem C7_getMetrics_order_and_failfast_witness :
    getMetrics wInstEH wEnvOk =
      (Except.ok { resourceGroups := ["c1", "rg-eh"]
                   compute := ⟨5⟩, networking := ⟨7⟩, eventHub := zeroEventHub },
       [ProviderCall.fetchCompute, ProviderCall.fetchNetwork,
        ProviderCall.fetchEventHub]) :=
  (C7_getMetrics_order_and_failfast wInstEH wEnvOk).2.2.2.2 ⟨5⟩ ⟨7⟩ zeroEventHub
    rfl rfl (by decide) rfl

/-- The `lastEvent` the intake handler carries forward from a pre-existing
cache entry (azure.go lines 221-226). -/
def carriedLast (store : Store Instance) (tid : String) : Option EventData :=
  match Store.get store tid with
  | some prev => prev.lastEvent
  | none => none

/-- The `eventHubResourceGroupName` the intake handler carries forward from
a pre-existing cache entry (azure.go lines 221-226). -/
def carriedName (store : Store Instance) (tid : String) : String :=
  match Store.get store tid with
  | some prev => prev.eventHubResourceGroupName
  | none => ""

/-- Happy-path characterization of one intake step for a non-deleted
notification: when client construction succeeds and the event-hub
resource group is resolvable (already carried forward, fresh lookup
success, or a trial cluster tolerating the failure), the handler `Put`s a
rebuilt instance whose retry state is reset, carrying forward exactly
`lastEvent` and `eventHubResourceGroupName`, and admits the TechnicalID. -/
theorem clusterHandlerStep_put (c : Cluster) (env : IntakeEnv)
    (store : Store Instance) (vm : Store VMCaps)
    (hdel : c.deleted = false)
    (hclient : env.clientOk = true)
    (hok : carriedName store c.technicalID ≠ "" ∨
           (∃ rg, env.resourceGroupResult = Except.ok rg) ∨ c.trial = true) :
    ∃ i, (clusterHandlerStep c env store vm).store =
        Store.put store c.technicalID i ∧
      i.cluster = c ∧ i.retryAttempts = 0 ∧ i.retryBackoff = false ∧
      i.lastEvent = carriedLast store c.technicalID ∧
      (i.eventHubResourceGroupName = carriedName store c.technicalID ∨
        ∃ rg, env.resourceGroupResult = Except.ok rg ∧
          i.eventHubResourceGroupName = rg) ∧
      (clusterHandlerStep c env store vm).queueAdds = [c.technicalID] ∧
      (clusterHandlerStep c env store vm).redelivery = none := by
  unfold clusterHandlerStep
  rw [hdel, hclient]
  simp only [Bool.not_true, Bool.false_eq_true, if_false]
  unfold carriedName at hok
  cases hprev : Store.get store c.technicalID with
  | none =>
      rw [hprev] at hok
      dsimp only
      by_cases hrg : ∃ rg, env.resourceGroupResult = Except.ok rg
      · obtain ⟨rg, hrg⟩ := hrg
        rw [hrg]
        dsimp only
        refine ⟨_, rfl, rfl, rfl, rfl, ?_, ?_, rfl, rfl⟩
        · unfold carriedLast
          rw [hprev]
        · exact Or.inr ⟨rg, rfl, rfl⟩
      · have htrial : c.trial = true := by
          rcases hok with h | h | h
          · exact absurd rfl h
          · exact absurd h hrg
          · exact h
        cases herr : env.resourceGroupResult with
        | ok rg => exact absurd ⟨rg, herr⟩ hrg
        | error e =>
            rw [htrial]
            dsimp only
            refine ⟨_, rfl, rfl, rfl, rfl, ?_, ?_, rfl, rfl⟩
            · unfold carriedLast
              rw [hprev]
            · left
              unfold carriedName
              rw [hprev]
  | some prev =>
      rw [hprev] at hok
      dsimp only
      by_cases hname : prev.eventHubResourceGroupName = ""
      · rw [hname]
        simp only [if_pos rfl]
        by_cases hrg : ∃ rg, env.resourceGroupResult = Except.ok rg
        · obtain ⟨rg, hrg⟩ := hrg
          rw [hrg]
          dsimp only
          refine ⟨_, rfl, rfl, rfl, rfl, ?_, ?_, rfl, rfl⟩
          · unfold carriedLast
            rw [hprev]
          · exact Or.inr ⟨rg, rfl, rfl⟩
        · have htrial : c.trial = true := by
            rcases hok with h | h | h
            · exact absurd hname h
            · exact absurd h hrg
            · exact h
          cases herr : env.resourceGroupResult with
          | ok rg => exact absurd ⟨rg, herr⟩ hrg
          | error e =>
              rw [htrial]
              dsimp only
              refine ⟨_, rfl, rfl, rfl, rfl, ?_, ?_, rfl, rfl⟩
              · unfold carriedLast
                rw [hprev]
              · left
                unfold carriedName
                rw [hprev]
                exact hname.symm
      · rw [if_neg hname]
        refine ⟨_, rfl, rfl, rfl, rfl, ?_, ?_, rfl, rfl⟩
        · unfold carriedLast
          rw [hprev]
        · left
          unfold carriedName
          rw [hprev]

/-- C4 counterexample: a single-notification sequence whose last (and only)
notification has `Deleted=false` but whose client construction fails
leaves the key absent from the Instance cache (azure.go line 231 deletes
it), while the claim requires the key to be present whenever the last
notification has `Deleted=false`.  So the final state does not depend
only on the last notification's Deleted flag. -/
theorem C4_client_failure_counterexample :
    wCluster.deleted = false ∧
    Store.get (intakeRun
        [(wCluster,
          { clientOk := false, resourceGroupResult := Except.ok "rg-eh"
            vmSkuResult := Except.ok [] })] [] []).1 "c1" = none := by
  constructor
  · rfl
  · rfl

/-- C4 (amended): for a finite sequence of notifications for one
TechnicalID, provided every notification is processed with successful
client construction and with a successful resource-group lookup or a
trial cluster, the final Instance-cache state for that key depends only
on the last notification: absent when it had `Deleted=true`, present and
reflecting its Cluster snapshot when `Deleted=false` (so deletes of an
absent key are no-ops and re-deliveries are idempotent). -/
theorem C4_last_notification_determines (tid : String)
    (ns : List (Cluster × IntakeEnv)) (store : Store Instance)
    (vm : Store VMCaps) (c : Cluster) (env : IntakeEnv)
    (hall : ∀ p ∈ ns ++ [(c, env)], p.1.technicalID = tid ∧
        p.2.clientOk = true ∧
        ((∃ rg, p.2.resourceGroupResult = Except.ok rg) ∨ p.1.trial = true)) :
    (c.deleted = true →
        Store.get (intakeRun (ns ++ [(c, env)]) store vm).1 tid = none) ∧
    (c.deleted = false →
        ∃ i, Store.get (intakeRun (ns ++ [(c, env)]) store vm).1 tid
            = some i ∧ i.cluster = c) := by
  induction ns generalizing store vm with
  | cons p rest ih =>
      obtain ⟨c0, env0⟩ := p
      have hall' : ∀ p ∈ rest ++ [(c, env)], p.1.technicalID = tid ∧
          p.2.clientOk = true ∧
          ((∃ rg, p.2.resourceGroupResult = Except.ok rg) ∨
            p.1.trial = true) :=
        fun p hp => hall p (List.mem_cons_of_mem _ hp)
      exact ih _ _ hall'
  | nil =>
      obtain ⟨htid, hclient, hrg⟩ :=
        hall (c, env) (List.mem_singleton.mpr rfl)
      show (c.deleted = true →
          Store.get (clusterHandlerStep c env store vm).store tid = none) ∧
        (c.deleted = false →
          ∃ i, Store.get (clusterHandlerStep c env store vm).store tid
              = some i ∧ i.cluster = c)
      constructor
      · intro hdel
        unfold clusterHandlerStep
        rw [hdel]
        dsimp only
        rw [← htid]
        exact Store.get_delete_self _ _
      · intro hdel
        obtain ⟨i, hst, hcl, -, -, -, -, -, -⟩ :=
          clusterHandlerStep_put c env store vm hdel hclient
            (Or.inr hrg)
        refine ⟨i, ?_, hcl⟩
        rw [hst, ← htid]
        exact Store.get_put_self _ _ _

/-- Deleted-notification variant of the sample cluster. -/
def wClusterDel : Cluster := { wCluster with deleted := true }

/-- Fully successful intake environment for the witnesses. -/
def wIntakeOk : IntakeEnv :=
  { clientOk := true, resourceGroupResult := Except.ok "rg-eh"
    vmSkuResult := Except.ok [("vm1", [("cap", "v")])] }

theorem C4_last_notification_determines_witness :
    Store.get (intakeRun ([(wCluster, wIntakeOk)] ++ [(wClusterDel, wIntakeOk)])
        [] []).1 "c1" = none := by
  refine (C4_last_notification_determines "c1"
      [(wCluster, wIntakeOk)] [] [] wClusterDel wIntakeOk ?_).1 rfl
  intro p hp
  rcases List.mem_cons.mp hp with h | hp'
  · subst h
    exact ⟨rfl, rfl, Or.inl ⟨"rg-eh", rfl⟩⟩
  · have h := List.mem_singleton.mp hp'
    subst h
    exact ⟨rfl, rfl, Or.inl ⟨"rg-eh", rfl⟩⟩

/-- C8: for a non-deleted notification whose carried-forward event-hub
resource group name is unknown and whose lookup fails: a non-trial
cluster only schedules a delayed re-delivery of the same notification
(no persistence, no admission, caches untouched); a trial cluster
proceeds, persisting the rebuilt Instance with an empty
`eventHubResourceGroupName` and admitting the TechnicalID. -/
theorem C8_lookup_failure_policy (c : Cluster) (env : IntakeEnv)
    (store : Store Instance) (vm : Store VMCaps) (emsg : String)
    (hdel : c.deleted = false)
    (hclient : env.clientOk = true)
    (hname : carriedName store c.technicalID = "")
    (hfail : env.resourceGroupResult = Except.error emsg) :
    (c.trial = false →
        clusterHandlerStep c env store vm =
          { store := store, vmCaps := vm, queueAdds := []
            redelivery := some c }) ∧
    (c.trial = true →
        (∃ i, Store.get (clusterHandlerStep c env store vm).store
            c.technicalID = some i ∧ i.cluster = c ∧
            i.eventHubResourceGroupName = "") ∧
        (clusterHandlerStep c env store vm).queueAdds = [c.technicalID] ∧
        (clusterHandlerStep c env store vm).redelivery = none) := by
  constructor
  · intro htrial
    unfold clusterHandlerStep
    rw [hdel, hclient]
    simp only [Bool.not_true, Bool.false_eq_true, if_false]
    unfold carriedName at hname
    cases hprev : Store.get store c.technicalID with
    | none =>
        dsimp only
        rw [hfail, htrial]
        rfl
    | some prev =>
        rw [hprev] at hname
        have hname' : prev.eventHubResourceGroupName = "" := hname
        dsimp only
        rw [hname']
        simp only [if_pos rfl]
        rw [hfail, htrial]
        rfl
  · intro htrial
    obtain ⟨i, hst, hcl, -, -, -, hn, hq, hrd⟩ :=
      clusterHandlerStep_put c env store vm hdel hclient
        (Or.inr (Or.inr htrial))
    have hin : i.eventHubResourceGroupName = "" := by
      rcases hn with hn | ⟨rg, hrg, -⟩
      · rw [hn, hname]
      · rw [hfail] at hrg
        cases hrg
    refine ⟨⟨i, ?_, hcl, hin⟩, hq, hrd⟩
    rw [hst]
    exact Store.get_put_self _ _ _

theorem C8_lookup_failure_policy_witness :
    clusterHandlerStep wCluster
        { clientOk := true, resourceGroupResult := Except.error "not ready"
          vmSkuResult := Except.ok [] } [] [] =
      { store := [], vmCaps := [], queueAdds := []
        redelivery := some wCluster } :=
  (C8_lookup_failure_policy wCluster
      { clientOk := true, resourceGroupResult := Except.error "not ready"
        vmSkuResult := Except.ok [] } [] [] "not ready"
      rfl rfl rfl rfl).1 rfl

/-- C10: when intake processes a non-deleted notification for a
TechnicalID that already has a cached Instance (and the step persists,
i.e. client construction succeeds and the event-hub resource group is
carried forward, freshly resolved, or the cluster is trial), the rebuilt
Instance carries forward exactly `lastEvent` and (unless freshly
resolved) `eventHubResourceGroupName`, while `retryAttempts` is reset to
zero and `retryBackoff` is cleared. -/
theorem C10_rebuild_resets_retry_state (c : Cluster) (env : IntakeEnv)
    (store : Store Instance) (vm : Store VMCaps) (prev : Instance)
    (hdel : c.deleted = false)
    (hclient : env.clientOk = true)
    (hprev : Store.get store c.technicalID = some prev)
    (hok : prev.eventHubResourceGroupName ≠ "" ∨
           (∃ rg, env.resourceGroupResult = Except.ok rg) ∨ c.trial = true) :
    ∃ i, Store.get (clusterHandlerStep c env store vm).store
        c.technicalID = some i ∧
      i.cluster = c ∧
      i.lastEvent = prev.lastEvent ∧
      i.retryAttempts = 0 ∧
      i.retryBackoff = false ∧
      (i.eventHubResourceGroupName = prev.eventHubResourceGroupName ∨
        ∃ rg, env.resourceGroupResult = Except.ok rg ∧
          i.eventHubResourceGroupName = rg) := by
  have hcarN : carriedName store c.technicalID = prev.eventHubResourceGroupName := by
    unfold carriedName
    rw [hprev]
  have hcarL : carriedLast store c.technicalID = prev.lastEvent := by
    unfold carriedLast
    rw [hprev]
  have hok' : carriedName store c.technicalID ≠ "" ∨
      (∃ rg, env.resourceGroupResult = Except.ok rg) ∨ c.trial = true := by
    rw [hcarN]
    exact hok
  obtain ⟨i, hst, hcl, ha, hb, hle, hn, -, -⟩ :=
    clusterHandlerStep_put c env store vm hdel hclient hok'
  refine ⟨i, ?_, hcl, ?_, ha, hb, ?_⟩
  · rw [hst]
    exact Store.get_put_self _ _ _
  · rw [hle, hcarL]
  · rcases hn with hn | hn
    · left
      rw [hn, hcarN]
    · right
      exact hn

/-- Pre-existing cache entry with degraded retry state, for the C10 witness. -/
def wInstPrev : Instance :=
  { cluster := wCluster, eventHubResourceGroupName := "rg-eh"
    lastEvent := some wEventData, retryAttempts := 2, retryBackoff := true }

theorem C10_rebuild_resets_retry_state_witness :
    ∃ i, Store.get (clusterHandlerStep wCluster wIntakeOk
        [("c1", wInstPrev)] []).store "c1" = some i ∧
      i.cluster = wCluster ∧
      i.lastEvent = some wEventData ∧
      i.retryAttempts = 0 ∧
      i.retryBackoff = false ∧
      (i.eventHubResourceGroupName = "rg-eh" ∨
        ∃ rg, wIntakeOk.resourceGroupResult = Except.ok rg ∧
          i.eventHubResourceGroupName = rg) :=
  C10_rebuild_resets_retry_state wCluster wIntakeOk [("c1", wInstPrev)] []
    wInstPrev rfl rfl rfl (Or.inl (by decide))

/-! Concurrency model for the worker pool.  The Work Queue is the borrowed
k8s delaying workqueue (an external dependency, not part of this
repository's sources); it is modelled from the contract stated by the
spec — a key-unique queue where `Add`/`AddAfter` collapse duplicate
pending or in-flight keys, `Get` hands a visible key to one worker, and
`Done` ends that key's in-flight ownership.  The requeue delay only
affects when an add becomes visible, never safety, so a single `add`
transition covers `Add` and an elapsed `AddAfter`. -/

/-- Work Queue state: `queued` is the visible FIFO, `dirty` the keys added
since they were last handed out, `processing` the in-flight keys. -/
structure QueueState where
  queued : List String
  dirty : List String
  processing : List String
deriving Repr, DecidableEq

/-- `Add(key)`: a key already marked dirty is dropped; a key being
processed is parked in `dirty` and only becomes visible on `Done`;
otherwise it is marked dirty and appended to the visible queue. -/
def qAdd (q : QueueState) (k : String) : QueueState :=
  if k ∈ q.dirty then q
  else if k ∈ q.processing then { q with dirty := k :: q.dirty }
  else { q with dirty := k :: q.dirty, queued := q.queued ++ [k] }

/-- `Done(key)`: ends processing; a key re-added while it was in flight
becomes visible again. -/
def qDone (q : QueueState) (k : String) : QueueState :=
  if k ∈ q.dirty then
    { queued := q.queued ++ [k], dirty := q.dirty
      processing := q.processing.erase k }
  else
    { q with processing := q.processing.erase k }

/-- Worker pool state: the shared queue plus, per worker, the key it is
currently processing (if any). -/
structure PoolState where
  queue : QueueState
  workers : List (Option String)
deriving Repr, DecidableEq

/-- Interleaving semantics of `Run`'s worker loop over the shared queue:
any producer may `add` a key; an idle worker may `get` the head of the
visible queue (which moves it to `processing` and clears its dirty mark);
a worker owning a key may `done` it. -/
inductive PoolStep : PoolState → PoolState → Prop
  | add (s : PoolState) (k : String) :
      PoolStep s { s with queue := qAdd s.queue k }
  | get (s : PoolState) (i : Nat) (k : String) (rest : List String)
      (hw : s.workers[i]? = some none)
      (hq : s.queue.queued = k :: rest) :
      PoolStep s
        { queue := { queued := rest, dirty := s.queue.dirty.erase k,
                     processing := k :: s.queue.processing },
          workers := s.workers.set i (some k) }
  | done (s : PoolState) (i : Nat) (k : String)
      (hw : s.workers[i]? = some (some k)) :
      PoolStep s { queue := qDone s.queue k, workers := s.workers.set i none }

/-- Initial pool: empty queue, `n` idle workers. -/
def initPool (n : Nat) : PoolState :=
  { queue := { queued := [], dirty := [], processing := [] }
    workers := List.replicate n none }

/-- States the pool can reach from the initial state. -/
def Reachable (n : Nat) (s : PoolState) : Prop :=
  Relation.ReflTransGen PoolStep (initPool n) s

/-- Safety invariant of the pool: every held key is in `processing`, no key
is held by two workers, the visible queue is duplicate-free and disjoint
from `processing`, `processing` is duplicate-free, and every visible key
is marked dirty. -/
structure PoolInv (s : PoolState) : Prop where
  held_processing : ∀ (i : Nat) (k : String), s.workers[i]? = some (some k) →
    k ∈ s.queue.processing
  excl : ∀ (i j : Nat) (k : String), s.workers[i]? = some (some k) →
    s.workers[j]? = some (some k) → i = j
  queued_nodup : s.queue.queued.Nodup
  queued_proc_disjoint : ∀ k ∈ s.queue.queued, k ∉ s.queue.processing
  proc_nodup : s.queue.processing.Nodup
  queued_dirty : ∀ k ∈ s.queue.queued, k ∈ s.queue.dirty

theorem replicate_none_getElem? (n i : Nat) :
    (List.replicate n (none : Option String))[i]? = some none ∨
    (List.replicate n (none : Option String))[i]? = none := by
  induction n generalizing i with
  | zero =>
      right
      simp
  | succ m ih =>
      cases i with
      | zero =>
          left
          rw [List.replicate_succ]
          simp
      | succ j =>
          rw [List.replicate_succ, List.getElem?_cons_succ]
          exact ih j

theorem initPool_workers_not_busy (n i : Nat) (k : String) :
    (initPool n).workers[i]? ≠ some (some k) := by
  intro h
  have hw : (initPool n).workers = List.replicate n none := rfl
  rw [hw] at h
  rcases replicate_none_getElem? n i with hr | hr
  · rw [hr] at h
    injection h with h
    cases h
  · rw [hr] at h
    cases h

theorem poolInv_init (n : Nat) : PoolInv (initPool n) := by
  refine ⟨?_, ?_, List.nodup_nil, ?_, List.nodup_nil, ?_⟩
  · intro i k h
    exact absurd h (initPool_workers_not_busy n i k)
  · intro i j k hi hj
    exact absurd hi (initPool_workers_not_busy n i k)
  · intro k h
    cases h
  · intro k h
    cases h

theorem poolInv_step {s s' : PoolState} (inv : PoolInv s)
    (st : PoolStep s s') : PoolInv s' := by
  cases st with
  | add k =>
      by_cases h1 : k ∈ s.queue.dirty
      · have heq : qAdd s.queue k = s.queue := by
          unfold qAdd
          rw [if_pos h1]
        rw [heq]
        exact inv
      · by_cases h2 : k ∈ s.queue.processing
        · have heq : qAdd s.queue k
              = { s.queue with dirty := k :: s.queue.dirty } := by
            unfold qAdd
            rw [if_neg h1, if_pos h2]
          rw [heq]
          exact ⟨inv.held_processing, inv.excl, inv.queued_nodup,
            inv.queued_proc_disjoint, inv.proc_nodup,
            fun k' hk' => List.mem_cons_of_mem _ (inv.queued_dirty k' hk')⟩
        · have heq : qAdd s.queue k
              = { queued := s.queue.queued ++ [k], dirty := k :: s.queue.dirty, processing := s.queue.processing } := by
            unfold qAdd
            rw [if_neg h1, if_neg h2]
          rw [heq]
          refine ⟨inv.held_processing, inv.excl, ?_, ?_, inv.proc_nodup, ?_⟩
          · rw [List.nodup_append]
            refine ⟨inv.queued_nodup, List.nodup_singleton k, ?_⟩
            intro a ha hak
            have hak' : a = k := List.mem_singleton.mp hak
            subst hak'
            exact h1 (inv.queued_dirty a ha)
          · intro k' hk'
            rcases List.mem_append.mp hk' with h | h
            · exact inv.queued_proc_disjoint k' h
            · have : k' = k := List.mem_singleton.mp h
              subst this
              exact h2
          · intro k' hk'
            rcases List.mem_append.mp hk' with h | h
            · exact List.mem_cons_of_mem _ (inv.queued_dirty k' h)
            · have : k' = k := List.mem_singleton.mp h
              subst this
              exact List.mem_cons_self _ _
  | get i k rest hw hq =>
      obtain ⟨hi_lt, -⟩ := List.getElem?_eq_some.mp hw
      have hknotproc : k ∉ s.queue.processing :=
        inv.queued_proc_disjoint k (by rw [hq]; exact List.mem_cons_self _ _)
      have hnodup : (k :: rest).Nodup := hq ▸ inv.queued_nodup
      have hknotrest : k ∉ rest := (List.nodup_cons.mp hnodup).1
      have hrestnodup : rest.Nodup := (List.nodup_cons.mp hnodup).2
      refine ⟨?_, ?_, hrestnodup, ?_, ?_, ?_⟩
      · intro j k' hj
        by_cases hij : i = j
        · subst hij
          rw [List.getElem?_set_self hi_lt] at hj
          have : k = k' := by
            injection hj with hj
            injection hj
          subst this
          exact List.mem_cons_self _ _
        · rw [List.getElem?_set_ne hij] at hj
          exact List.mem_cons_of_mem _ (inv.held_processing j k' hj)
      · intro j1 j2 k' h1 h2
        by_cases e1 : i = j1 <;> by_cases e2 : i = j2
        · rw [← e1, ← e2]
        · exfalso
          subst e1
          rw [List.getElem?_set_self hi_lt] at h1
          have hk' : k = k' := by
            injection h1 with h1
            injection h1
          subst hk'
          rw [List.getElem?_set_ne e2] at h2
          exact hknotproc (inv.held_processing j2 k h2)
        · exfalso
          subst e2
          rw [List.getElem?_set_self hi_lt] at h2
          have hk' : k = k' := by
            injection h2 with h2
            injection h2
          subst hk'
          rw [List.getElem?_set_ne e1] at h1
          exact hknotproc (inv.held_processing j1 k h1)
        · rw [List.getElem?_set_ne e1] at h1
          rw [List.getElem?_set_ne e2] at h2
          exact inv.excl j1 j2 k' h1 h2
      · intro k' hk'
        have hmemq : k' ∈ s.queue.queued := by
          rw [hq]
          exact List.mem_cons_of_mem _ hk'
        have hne : k' ≠ k := fun h => hknotrest (h ▸ hk')
        intro hmem
        rcases List.mem_cons.mp hmem with h | h
        · exact hne h
        · exact inv.queued_proc_disjoint k' hmemq h
      · exact List.nodup_cons.mpr ⟨hknotproc, inv.proc_nodup⟩
      · intro k' hk'
        have hmemq : k' ∈ s.queue.queued := by
          rw [hq]
          exact List.mem_cons_of_mem _ hk'
        have hne : k' ≠ k := fun h => hknotrest (h ▸ hk')
        exact (List.mem_erase_of_ne hne).mpr (inv.queued_dirty k' hmemq)
  | done i k hw =>
      obtain ⟨hi_lt, -⟩ := List.getElem?_eq_some.mp hw
      have hkproc : k ∈ s.queue.processing := inv.held_processing i k hw
      have hknotqueued : k ∉ s.queue.queued :=
        fun h => inv.queued_proc_disjoint k h hkproc
      have held' : ∀ (j : Nat) (k' : String),
          (s.workers.set i none)[j]? = some (some k') →
          k' ∈ s.queue.processing.erase k := by
        intro j k' hj
        by_cases hij : i = j
        · subst hij
          rw [List.getElem?_set_self hi_lt] at hj
          exfalso
          injection hj with hj
          cases hj
        · rw [List.getElem?_set_ne hij] at hj
          have hmem := inv.held_processing j k' hj
          have hne : k' ≠ k := by
            intro h
            subst h
            exact hij (inv.excl i j k' hw hj)
          exact (List.mem_erase_of_ne hne).mpr hmem
      have excl' : ∀ (j1 j2 : Nat) (k' : String),
          (s.workers.set i none)[j1]? = some (some k') →
          (s.workers.set i none)[j2]? = some (some k') → j1 = j2 := by
        intro j1 j2 k' h1 h2
        by_cases e1 : i = j1
        · subst e1
          rw [List.getElem?_set_self hi_lt] at h1
          exfalso
          injection h1 with h1
          cases h1
        · by_cases e2 : i = j2
          · subst e2
            rw [List.getElem?_set_self hi_lt] at h2
            exfalso
            injection h2 with h2
            cases h2
          · rw [List.getElem?_set_ne e1] at h1
            rw [List.getElem?_set_ne e2] at h2
            exact inv.excl j1 j2 k' h1 h2
      by_cases hd : k ∈ s.queue.dirty
      · have heq : qDone s.queue k
            = { queued := s.queue.queued ++ [k], dirty := s.queue.dirty
                processing := s.queue.processing.erase k } := by
          unfold qDone
          rw [if_pos hd]
        rw [heq]
        refine ⟨held', excl', ?_, ?_, List.Nodup.erase k inv.proc_nodup, ?_⟩
        · rw [List.nodup_append]
          refine ⟨inv.queued_nodup, List.nodup_singleton k, ?_⟩
          intro a ha hak
          have : a = k := List.mem_singleton.mp hak
          subst this
          exact hknotqueued ha
        · intro k' hk'
          rcases List.mem_append.mp hk' with h | h
          · intro hmem
            exact inv.queued_proc_disjoint k' h (List.mem_of_mem_erase hmem)
          · have : k' = k := List.mem_singleton.mp h
            subst this
            exact List.Nodup.not_mem_erase inv.proc_nodup
        · intro k' hk'
          rcases List.mem_append.mp hk' with h | h
          · exact inv.queued_dirty k' h
          · have : k' = k := List.mem_singleton.mp h
            subst this
            exact hd
      · have heq : qDone s.queue k
            = { s.queue with processing := s.queue.processing.erase k } := by
          unfold qDone
          rw [if_neg hd]
        rw [heq]
        refine ⟨held', excl', inv.queued_nodup, ?_,
          List.Nodup.erase k inv.proc_nodup, inv.queued_dirty⟩
        intro k' hk' hmem
        exact inv.queued_proc_disjoint k' hk' (List.mem_of_mem_erase hmem)

theorem reachable_poolInv {n : Nat} {s : PoolState}
    (hs : Reachable n s) : PoolInv s := by
  induction hs with
  | refl => exact poolInv_init n
  | tail _ st ih => exact poolInv_step ih st

/-- C9: in every reachable state of the worker pool, no TechnicalID is
processed by two workers simultaneously — the Work Queue's per-key
uniqueness means a dequeued key is owned by exactly one worker until its
`Done`, so the per-cycle read-modify-write of the retry counters is
serialized per key (no duplicated or lost update within one polling
round). -/
theorem C9_no_concurrent_processing (n : Nat) (s : PoolState)
    (hs : Reachable n s) (i j : Nat) (k : String)
    (hi : s.workers[i]? = some (some k))
    (hj : s.workers[j]? = some (some k)) : i = j :=
  (reachable_poolInv hs).excl i j k hi hj

theorem C9_no_concurrent_processing_witness : (0 : Nat) = 0 :=
  C9_no_concurrent_processing 2
    { queue := { queued := [], dirty := [], processing := ["a"] }
      workers := [some "a", none] }
    (Relation.ReflTransGen.tail
      (Relation.ReflTransGen.tail Relation.ReflTransGen.refl
        (PoolStep.add (initPool 2) "a"))
      (PoolStep.get _ 0 "a" [] rfl rfl))
    0 0 "a" rfl rfl

end Metris
